import Mathlib

/-!
Verification development for the cron day-field resolver core: the
`DaysOfMonth` and `DaysOfWeek` time-unit fields, their ordinal validation,
specifier resolution, and calendar expansion.

The two field implementations are translated directly from
`src/time_unit/days_of_month.rs` and `src/time_unit/days_of_week.rs`.
Collaborators that live outside those two files (the qualifier bit
constants, the calendar helpers, the specifier type, and the shared
default validator/resolver of the `TimeUnitField` contract) are modelled
from the specification; each such definition carries a doc comment
beginning `Modelled from the spec:`.

Machine integers (`Ordinal` is Rust `u32`) are modelled as `Nat`; the
bitwise complement `!flag` of the source is `not32 flag`, complement
within 32 bits.  A `u32` subtraction of the source is `checked_sub`,
whose `none` result models the debug-mode underflow panic; likewise the
`.expect(..)` on `NaiveDate::from_ymd_opt` is modelled by propagating
`Option`, so `none` marks exactly the inputs on which the source panics.
-/

namespace cron

/-- Ordinal is the source's `u32` value carrying a base calendar value plus qualifier bits.
The alias records the source name; the definitions below write `Nat` directly (the
same type) so that arithmetic automation sees plain natural numbers. -/
abbrev Ordinal := Nat

/-- Modelled from the spec: all ordinals are `u32` values. -/
def U32_SIZE : Nat := 2 ^ 32

/-- Bitwise complement within 32 bits, the meaning of Rust `!flag` on `u32`. -/
def not32 (n : Nat) : Nat := (U32_SIZE - 1) ^^^ n

/-- Modelled from the spec: the `LAST_OCCURRENCE` qualifier bit — "relative to month
end" (day-of-month) or "last weekday occurrence in month" (day-of-week).  The spec fixes
only that qualifier bits sit in otherwise-unused high bits (base values occupy bits 0-4),
so a concrete choice of distinct high bits is made here. -/
def IS_LAST_OCCURRENCE : Nat := 2 ^ 8

/-- Modelled from the spec: the `WEEKDAY` qualifier bit (day-of-month only) — "nudge
this day to the nearest weekday". -/
def IS_WEEKDAY : Nat := 2 ^ 9

/-- Modelled from the spec: 1st-occurrence bit of the `NTH_OCCURRENCE` group (day-of-week only). -/
def IS_1ST_OCCURRENCE : Nat := 2 ^ 10

/-- Modelled from the spec: 2nd-occurrence bit of the `NTH_OCCURRENCE` group. -/
def IS_2ND_OCCURRENCE : Nat := 2 ^ 11

/-- Modelled from the spec: 3rd-occurrence bit of the `NTH_OCCURRENCE` group. -/
def IS_3RD_OCCURRENCE : Nat := 2 ^ 12

/-- Modelled from the spec: 4th-occurrence bit of the `NTH_OCCURRENCE` group. -/
def IS_4TH_OCCURRENCE : Nat := 2 ^ 13

/-- Modelled from the spec: 5th-occurrence bit of the `NTH_OCCURRENCE` group. -/
def IS_5TH_OCCURRENCE : Nat := 2 ^ 14

/-- Modelled from the spec: the combined mask flagging "some Nth-occurrence constraint
is present", the OR of the five occurrence bits. -/
def IS_NTH_OCCURRENCE : Nat :=
  IS_1ST_OCCURRENCE ||| IS_2ND_OCCURRENCE ||| IS_3RD_OCCURRENCE |||
    IS_4TH_OCCURRENCE ||| IS_5TH_OCCURRENCE

/-- Modelled from the spec: the single error kind relevant to this core — an
`Expression` error carrying a human-readable message. -/
inductive Error where
  | Expression (msg : String)
deriving DecidableEq

/-- Recognizer for the `Expression` error kind on a fallible result. -/
def isExpressionError {α : Type} : Except Error α → Bool
  | Except.error (Error.Expression _) => true
  | Except.ok _ => false

instance {ε α : Type} [DecidableEq ε] [DecidableEq α] : DecidableEq (Except ε α)
  | Except.ok a, Except.ok b =>
    if h : a = b then isTrue (by rw [h]) else isFalse (by intro hc; cases hc; exact h rfl)
  | Except.error a, Except.error b =>
    if h : a = b then isTrue (by rw [h]) else isFalse (by intro hc; cases hc; exact h rfl)
  | Except.ok _, Except.error _ => isFalse (by intro hc; cases hc)
  | Except.error _, Except.ok _ => isFalse (by intro hc; cases hc)

/-- Subtraction as performed on `u32` by the source; `none` models the underflow panic. -/
def checked_sub (a b : Nat) : Option Nat :=
  if b ≤ a then some (a - b) else none

/-- Modelled from the spec: leap-year rule of the external, leap-year-correct calendar
collaborator (proleptic Gregorian). -/
def timeUnit.is_leap_year (year : Nat) : Bool :=
  (year % 4 == 0 && year % 100 != 0) || year % 400 == 0

/-- Modelled from the spec: the external calendar collaborator providing
"days in month M of year Y", leap-year correct (the source's `super::days_in_month`). -/
def timeUnit.days_in_month (month year : Nat) : Nat :=
  if month = 2 then (if timeUnit.is_leap_year year then 29 else 28)
  else if month = 4 ∨ month = 6 ∨ month = 9 ∨ month = 11 then 30
  else 31

/-- A calendar date, the data the source reads off a `chrono` date value
(`year()`, `month()`, `day()`). -/
structure Date where
  year : Nat
  month : Nat
  day : Nat
deriving DecidableEq

/-- A real calendar date: month 1-12 and day within the month's true length. -/
def Date.valid (d : Date) : Prop :=
  1 ≤ d.month ∧ d.month ≤ 12 ∧ 1 ≤ d.day ∧ d.day ≤ timeUnit.days_in_month d.month d.year

instance (d : Date) : Decidable d.valid := by
  unfold Date.valid
  infer_instance

/-- Modelled from the spec: the external calendar collaborator's "weekday number of
date D" (1 = Sunday .. 7 = Saturday), via Zeller's congruence on the proleptic
Gregorian calendar (the source's `date.weekday().number_from_sunday()`). -/
def number_from_sunday (d : Date) : Nat :=
  let m := if d.month ≤ 2 then d.month + 12 else d.month
  let y := if d.month ≤ 2 then d.year - 1 else d.year
  let h := (d.day + 13 * (m + 1) / 5 + y % 100 + y % 100 / 4 + y / 100 / 4 + 5 * (y / 100)) % 7
  (h + 6) % 7 + 1

/-- Modelled from the spec: `chrono::NaiveDate::from_ymd_opt` — succeeds exactly on
real calendar dates. -/
def from_ymd_opt (year month day : Nat) : Option Date :=
  if 1 ≤ month ∧ month ≤ 12 ∧ 1 ≤ day ∧ day ≤ timeUnit.days_in_month month year then
    some ⟨year, month, day⟩
  else none

/-- Modelled from the spec: the inner shape of the day-specific compound specifiers —
a bare point or a named point. -/
inductive SingleSpecifier where
  | Point (value : Nat)
  | NamedPoint (name : String)

/-- Modelled from the spec: one parsed constraint as received from the excluded
grammar layer — a bare point, a named point, a range, a period, "all", or one of the
day-specific compound forms `LastPoint`, `Weekday`, `NthOfMonth`. -/
inductive RootSpecifier where
  | Point (value : Nat)
  | NamedPoint (name : String)
  | Range (start finish : Nat)
  | Period (start step : Nat)
  | All
  | LastPoint (inner : SingleSpecifier)
  | Weekday (value : Nat)
  | NthOfMonth (inner : SingleSpecifier) (occurrence : Nat)

/-- Modelled from the spec: the shared default bound check of the `TimeUnitField`
contract — fails with an `Expression` error citing the field name, the offending
value and the valid bounds when the (qualifier-stripped) value is outside
`[inclusive_min, inclusive_max]`. -/
def validate_ordinal_default (inclusive_min inclusive_max : Nat) (field_name : String)
    (ordinal : Nat) : Except Error Nat :=
  if ordinal < inclusive_min ∨ ordinal > inclusive_max then
    Except.error (Error.Expression
      (field_name ++ " must be between " ++ toString inclusive_min ++ " and "
        ++ toString inclusive_max ++ ". ('" ++ toString ordinal ++ "' specified.)"))
  else Except.ok ordinal

/-- Source: `DaysOfMonth::inclusive_min`. -/
def DaysOfMonth.inclusive_min : Nat := 1

/-- Source: `DaysOfMonth::inclusive_max`. -/
def DaysOfMonth.inclusive_max : Nat := 31

/-- Source: `DaysOfMonth::validate_ordinal`; with `IS_LAST_OCCURRENCE` set the
stripped value counts days before month end and must be at most 28; otherwise the
stripped value goes through the shared default bound check, and the original ordinal
is returned on success. -/
def DaysOfMonth.validate_ordinal (ordinal : Nat) : Except Error Nat :=
  let days_count_before_end_of_month := ordinal &&& not32 IS_LAST_OCCURRENCE &&& not32 IS_WEEKDAY
  if ordinal &&& IS_LAST_OCCURRENCE != 0 then
    if days_count_before_end_of_month > 28 then
      Except.error (Error.Expression
        ("A day of month more than 28 days before the last day of the month for Days of Month may not exist, got "
          ++ toString days_count_before_end_of_month))
    else Except.ok ordinal
  else
    match validate_ordinal_default DaysOfMonth.inclusive_min DaysOfMonth.inclusive_max
        "Days of Month" days_count_before_end_of_month with
    | Except.error e => Except.error e
    | Except.ok _ => Except.ok ordinal

/-- The body of the per-ordinal closure inside `DaysOfMonth::days_in_month` from the
source.  `days_in_month` is the month's real length, already computed by the caller.
`none` models the `.expect("day of month must be valid")` panic (and `u32` underflow). -/
def DaysOfMonth.expand_ordinal (month_ordinal year days_in_month : Nat)
    (ordinal : Nat) : Option Nat :=
  if ordinal &&& IS_WEEKDAY == 0 then
    if ordinal &&& IS_LAST_OCCURRENCE == 0 then
      some ordinal
    else
      checked_sub days_in_month (ordinal &&& not32 IS_LAST_OCCURRENCE)
  else
    let day_of_month :=
      if ordinal &&& IS_LAST_OCCURRENCE == 0 then ordinal &&& not32 IS_WEEKDAY
      else days_in_month
    (from_ymd_opt year month_ordinal day_of_month).bind fun date =>
      let day_of_week := number_from_sunday date
      if day_of_week == 1 then
        if day_of_month == days_in_month then checked_sub day_of_month 2
        else some (day_of_month + 1)
      else if day_of_week == 7 then
        if day_of_month == 1 then some 3
        else checked_sub day_of_month 1
      else some day_of_month

/-- The `.iter().map(..).collect()` loop of `DaysOfMonth::days_in_month`, expanding
every stored ordinal; `none` as soon as one expansion panics. -/
def DaysOfMonth.expand_all (month_ordinal year days_in_month : Nat) :
    List Nat → Option (List Nat)
  | [] => some []
  | ordinal :: rest =>
    match DaysOfMonth.expand_ordinal month_ordinal year days_in_month ordinal with
    | none => none
    | some day =>
      match DaysOfMonth.expand_all month_ordinal year days_in_month rest with
      | none => none
      | some days => some (day :: days)

/-- Source: `DaysOfMonth::days_in_month`; for a concrete month and year,
expand the field's effective ordinal set (here: its ordinal list) into literal
day-of-month numbers. -/
def DaysOfMonth.days_in_month (ordinals : List Nat) (month_ordinal year : Nat) :
    Option (List Nat) :=
  DaysOfMonth.expand_all month_ordinal year (timeUnit.days_in_month month_ordinal year) ordinals

/-- Source: `DaysOfWeek::inclusive_min`. -/
def DaysOfWeek.inclusive_min : Nat := 1

/-- Source: `DaysOfWeek::inclusive_max`. -/
def DaysOfWeek.inclusive_max : Nat := 7

/-- Rust's `str::to_lowercase` as used by the source on weekday names (ASCII-range
lowercasing suffices for them). -/
def to_lowercase (s : String) : String :=
  String.mk (s.data.map Char.toLower)

/-- Source: `DaysOfWeek::ordinal_from_name`. -/
def DaysOfWeek.ordinal_from_name (name : String) : Except Error Nat :=
  match to_lowercase name with
  | "sun" | "sunday" => Except.ok 1
  | "mon" | "monday" => Except.ok 2
  | "tue" | "tues" | "tuesday" => Except.ok 3
  | "wed" | "wednesday" => Except.ok 4
  | "thu" | "thurs" | "thursday" => Except.ok 5
  | "fri" | "friday" => Except.ok 6
  | "sat" | "saturday" => Except.ok 7
  | _ => Except.error (Error.Expression ("'" ++ name ++ "' is not a valid day of the week."))

/-- Source: `DaysOfWeek::validate_ordinal`; with any `NTH_OCCURRENCE` bit set
the stripped value must be at most 5; otherwise the stripped value goes through the
shared default bound check, and the original ordinal is returned on success. -/
def DaysOfWeek.validate_ordinal (ordinal : Nat) : Except Error Nat :=
  let nth_of_month_day_of_week := ordinal &&& not32 IS_NTH_OCCURRENCE &&& not32 IS_LAST_OCCURRENCE
  if ordinal &&& IS_NTH_OCCURRENCE != 0 then
    if nth_of_month_day_of_week > 5 then
      Except.error (Error.Expression
        ("Occurrence of a weekday must be between 1 and 5 inclusive. ('"
          ++ toString nth_of_month_day_of_week ++ "' specified.)"))
    else Except.ok ordinal
  else
    match validate_ordinal_default DaysOfWeek.inclusive_min DaysOfWeek.inclusive_max
        "Days of Week" nth_of_month_day_of_week with
    | Except.error e => Except.error e
    | Except.ok _ => Except.ok ordinal

/-- Modelled from the spec: the shared default resolver used for the non-day-specific
specifier shapes — point validation through the field's `validate_ordinal`, named
point lookup, range expansion within the field bounds, period stepping from a
validated start, and "all" = the full bound set.  The day-specific compound shapes
reaching it is an upstream contract violation, treated as an error. -/
def ordinals_from_root_specifier_default (inclusive_min inclusive_max : Nat)
    (validate_field : Nat → Except Error Nat)
    (name_lookup : String → Except Error Nat) :
    RootSpecifier → Except Error (List Nat)
  | RootSpecifier.Point value => (validate_field value).map (fun o => [o])
  | RootSpecifier.NamedPoint name => (name_lookup name).map (fun o => [o])
  | RootSpecifier.Range start finish =>
    if inclusive_min ≤ start ∧ start ≤ finish ∧ finish ≤ inclusive_max then
      Except.ok (List.range' start (finish - start + 1))
    else Except.error (Error.Expression "Range is out of bounds or inverted.")
  | RootSpecifier.Period start step =>
    if step = 0 ∨ start < inclusive_min ∨ start > inclusive_max then
      Except.error (Error.Expression "Invalid period.")
    else
      Except.ok ((List.range' start (inclusive_max - start + 1)).filter
        (fun v => (v - start) % step == 0))
  | RootSpecifier.All => Except.ok (List.range' inclusive_min (inclusive_max - inclusive_min + 1))
  | _ => Except.error (Error.Expression "Specifier shape is not supported by this field.")

/-- The inner resolution of a `SingleSpecifier` repeated inside
`DaysOfWeek::ordinals_from_root_specifier`: a point is validated, a named point is
looked up. -/
def DaysOfWeek.resolve_single (single_specifier : SingleSpecifier) : Except Error Nat :=
  match single_specifier with
  | SingleSpecifier.Point ordinal => DaysOfWeek.validate_ordinal ordinal
  | SingleSpecifier.NamedPoint name => DaysOfWeek.ordinal_from_name name

/-- Source: `DaysOfWeek::ordinals_from_root_specifier`; `LastPoint(Point 0)`
is the historical "last day of week = Saturday" special case; any other `LastPoint`
resolves the inner specifier and sets `IS_LAST_OCCURRENCE`; `NthOfMonth` resolves the
inner specifier and sets the matching single occurrence bit, rejecting occurrence
numbers outside 1-5; everything else goes to the shared default resolver. -/
def DaysOfWeek.ordinals_from_root_specifier (root_specifier : RootSpecifier) :
    Except Error (List Nat) :=
  match root_specifier with
  | RootSpecifier.LastPoint single_specifier =>
    match single_specifier with
    | SingleSpecifier.Point 0 => Except.ok [DaysOfWeek.inclusive_max]
    | _ =>
      match DaysOfWeek.resolve_single single_specifier with
      | Except.error e => Except.error e
      | Except.ok day_of_week => Except.ok [day_of_week ||| IS_LAST_OCCURRENCE]
  | RootSpecifier.NthOfMonth single_specifier occurrence_number =>
    match DaysOfWeek.resolve_single single_specifier with
    | Except.error e => Except.error e
    | Except.ok day_of_week =>
      match occurrence_number with
      | 1 => Except.ok [day_of_week ||| IS_1ST_OCCURRENCE]
      | 2 => Except.ok [day_of_week ||| IS_2ND_OCCURRENCE]
      | 3 => Except.ok [day_of_week ||| IS_3RD_OCCURRENCE]
      | 4 => Except.ok [day_of_week ||| IS_4TH_OCCURRENCE]
      | 5 => Except.ok [day_of_week ||| IS_5TH_OCCURRENCE]
      | i => Except.error (Error.Expression
          ("Occurrence of a weekday must be between 1 and 5 inclusive. ('"
            ++ toString i ++ "' specified.)"))
  | other =>
    ordinals_from_root_specifier_default DaysOfWeek.inclusive_min DaysOfWeek.inclusive_max
      DaysOfWeek.validate_ordinal DaysOfWeek.ordinal_from_name other

/-- The body of the per-ordinal closure inside `DaysOfWeek::match_day_of` from the
source.  `none` models a `u32` underflow panic inside the closure. -/
def DaysOfWeek.match_ordinal (ordinal : Nat) (date : Date) : Option Bool :=
  if ordinal &&& not32 IS_NTH_OCCURRENCE &&& not32 IS_LAST_OCCURRENCE
      != number_from_sunday date then
    some false
  else if ordinal &&& IS_NTH_OCCURRENCE == 0 && ordinal &&& IS_LAST_OCCURRENCE == 0 then
    some true
  else if ordinal &&& IS_LAST_OCCURRENCE != 0 then
    (checked_sub (timeUnit.days_in_month date.month date.year) 7).map fun cutoff =>
      decide (date.day > cutoff)
  else
    (checked_sub date.day 1).map fun day0 =>
      if day0 / 7 == 0 then ordinal &&& IS_1ST_OCCURRENCE != 0
      else if day0 / 7 == 1 then ordinal &&& IS_2ND_OCCURRENCE != 0
      else if day0 / 7 == 2 then ordinal &&& IS_3RD_OCCURRENCE != 0
      else if day0 / 7 == 3 then ordinal &&& IS_4TH_OCCURRENCE != 0
      else if day0 / 7 == 4 then ordinal &&& IS_5TH_OCCURRENCE != 0
      else false

/-- Source: `DaysOfWeek::match_day_of`; the short-circuiting
`.iter().any(..)` over the field's effective ordinal set. -/
def DaysOfWeek.match_day_of : List Nat → Date → Option Bool
  | [], _ => some false
  | ordinal :: rest, date =>
    match DaysOfWeek.match_ordinal ordinal date with
    | none => none
    | some true => some true
    | some false => DaysOfWeek.match_day_of rest date

/-- The base day before nudging, as claim C3 words it: the literal stripped value, or
the month's last day when `LAST_OCCURRENCE` is also set. -/
def spec_weekday_base (days_in_month : Nat) (ordinal : Nat) : Nat :=
  if ordinal &&& IS_LAST_OCCURRENCE == 0 then ordinal &&& not32 IS_WEEKDAY else days_in_month

/-- The nudged day exactly as claim C3 words it: Sunday goes to day+1 unless the day
is the month's last, then day-2; Saturday goes to day-1 unless the day is 1, then 3;
any other weekday is unchanged. -/
def spec_weekday_nudge (month year days_in_month : Nat) (ordinal : Nat) : Nat :=
  let day := spec_weekday_base days_in_month ordinal
  let w := number_from_sunday ⟨year, month, day⟩
  if w = 1 then (if day = days_in_month then day - 2 else day + 1)
  else if w = 7 then (if day = 1 then 3 else day - 1)
  else day

/-- The occurrence bit selected by a zero-based week-of-month bucket, as claim C5
words it; buckets outside 0-4 select no bit and so never match. -/
def nth_bucket_flag : Nat → Nat
  | 0 => IS_1ST_OCCURRENCE
  | 1 => IS_2ND_OCCURRENCE
  | 2 => IS_3RD_OCCURRENCE
  | 3 => IS_4TH_OCCURRENCE
  | 4 => IS_5TH_OCCURRENCE
  | _ => 0

/-- The per-ordinal matching rule exactly as claim C5 words it: the stripped value
must equal the date's weekday number; then, with `LAST_OCCURRENCE` set, the day must
lie in the final 7 days of the month; with an `NTH_OCCURRENCE` bit set, the bucket
`(day-1)/7` must select an occurrence bit that is set on the ordinal; with no
qualifier, it matches unconditionally. -/
def spec_ordinal_matches (ordinal : Nat) (date : Date) : Bool :=
  (ordinal &&& not32 IS_NTH_OCCURRENCE &&& not32 IS_LAST_OCCURRENCE
      == number_from_sunday date) &&
  (if ordinal &&& IS_LAST_OCCURRENCE != 0 then
    decide (date.day > timeUnit.days_in_month date.month date.year - 7)
  else if ordinal &&& IS_NTH_OCCURRENCE != 0 then
    ordinal &&& nth_bucket_flag ((date.day - 1) / 7) != 0
  else true)

/-! ## Helper lemmas -/

/-- Every month of every year has at least 28 days. -/
theorem days_in_month_ge (month year : Nat) : 28 ≤ timeUnit.days_in_month month year := by
  unfold timeUnit.days_in_month
  split
  · split <;> omega
  · split <;> omega

/-- Bitwise conjunction distributes over disjunction on the left argument. -/
theorem land_lor_right (a b c : Nat) : (a ||| b) &&& c = a &&& c ||| b &&& c := by
  apply Nat.eq_of_testBit_eq
  intro i
  simp [Nat.testBit_land, Nat.testBit_lor, Bool.and_or_distrib_right]

/-- A disjunction with a nonzero right operand is nonzero. -/
theorem lor_ne_zero_right (x y : Nat) (hy : y ≠ 0) : x ||| y ≠ 0 := by
  intro h
  apply hy
  apply Nat.zero_of_testBit_eq_false
  intro i
  have hi : Nat.testBit (x ||| y) i = false := by
    rw [h]
    exact Nat.zero_testBit i
  rw [Nat.testBit_lor] at hi
  exact (Bool.or_eq_false_iff.mp hi).2

/-- Clearing bits that are not set leaves a 32-bit value unchanged. -/
theorem land_not32_self {x F : Nat} (hx : x < U32_SIZE) (h : x &&& F = 0) :
    x &&& not32 F = x := by
  apply Nat.eq_of_testBit_eq
  intro i
  by_cases hi : i < 32
  · have hF : (x.testBit i && F.testBit i) = false := by
      have := congrArg (fun n => Nat.testBit n i) h
      simpa [Nat.testBit_land, Nat.zero_testBit] using this
    simp only [not32, U32_SIZE, Nat.testBit_land, Nat.testBit_xor,
      Nat.testBit_two_pow_sub_one]
    cases hb : Nat.testBit x i <;> cases hc : Nat.testBit F i <;>
      simp_all [hi]
  · have hxi : x.testBit i = false := by
      apply Nat.testBit_lt_two_pow
      calc x < U32_SIZE := hx
        _ = 2 ^ 32 := rfl
        _ ≤ 2 ^ i := Nat.pow_le_pow_right (by omega) (by omega)
    simp [Nat.testBit_land, hxi]

/-- A validated day-of-month ordinal with `LAST_OCCURRENCE` set has a stripped base
of at most 28. -/
theorem dom_validate_last_le {o o' : Nat} (hl : o &&& IS_LAST_OCCURRENCE ≠ 0)
    (h : DaysOfMonth.validate_ordinal o = Except.ok o') :
    o &&& not32 IS_LAST_OCCURRENCE &&& not32 IS_WEEKDAY ≤ 28 := by
  by_cases hgt : 28 < o &&& not32 IS_LAST_OCCURRENCE &&& not32 IS_WEEKDAY
  · simp [DaysOfMonth.validate_ordinal, hl, hgt] at h
  · omega

/-- A validated day-of-month ordinal without `LAST_OCCURRENCE` has a stripped base
within the field bounds `[1, 31]`. -/
theorem dom_validate_default_bounds {o o' : Nat} (hl : o &&& IS_LAST_OCCURRENCE = 0)
    (h : DaysOfMonth.validate_ordinal o = Except.ok o') :
    1 ≤ o &&& not32 IS_LAST_OCCURRENCE &&& not32 IS_WEEKDAY ∧
      o &&& not32 IS_LAST_OCCURRENCE &&& not32 IS_WEEKDAY ≤ 31 := by
  by_cases hb : o &&& not32 IS_LAST_OCCURRENCE &&& not32 IS_WEEKDAY = 0 ∨
      31 < o &&& not32 IS_LAST_OCCURRENCE &&& not32 IS_WEEKDAY
  · simp [DaysOfMonth.validate_ordinal, validate_ordinal_default, hl,
      DaysOfMonth.inclusive_min, DaysOfMonth.inclusive_max] at h
    rw [if_pos hb] at h
    simp at h
  · omega

/-- For a 32-bit ordinal without the `WEEKDAY` bit, additionally clearing the
`WEEKDAY` bit changes nothing. -/
theorem strip_weekday_eq {o : Nat} (h32 : o < U32_SIZE) (hw : o &&& IS_WEEKDAY = 0) :
    (o &&& not32 IS_LAST_OCCURRENCE) &&& not32 IS_WEEKDAY = o &&& not32 IS_LAST_OCCURRENCE := by
  apply land_not32_self
  · calc o &&& not32 IS_LAST_OCCURRENCE ≤ o := Nat.and_le_left
      _ < U32_SIZE := h32
  · rw [Nat.land_assoc]
    have hcomm : not32 IS_LAST_OCCURRENCE &&& IS_WEEKDAY = IS_WEEKDAY := by decide
    rw [hcomm, hw]

/-- The fully stripped base is bounded by the value with only `WEEKDAY` cleared. -/
theorem stripped_le_weekday_base (o : Nat) :
    o &&& not32 IS_LAST_OCCURRENCE &&& not32 IS_WEEKDAY ≤ o &&& not32 IS_WEEKDAY := by
  rw [Nat.land_assoc, Nat.land_comm (not32 IS_LAST_OCCURRENCE), ← Nat.land_assoc]
  exact Nat.and_le_left

/-- Expansion of one validated day-of-month ordinal succeeds provided a
`WEEKDAY`-only ordinal's base day exists in the queried month. -/
theorem expand_ordinal_isSome (o month year : Nat)
    (hm1 : 1 ≤ month) (hm2 : month ≤ 12)
    (hval : DaysOfMonth.validate_ordinal o = Except.ok o)
    (h32 : o < U32_SIZE)
    (hwb : o &&& IS_WEEKDAY ≠ 0 → o &&& IS_LAST_OCCURRENCE = 0 →
      o &&& not32 IS_WEEKDAY ≤ timeUnit.days_in_month month year) :
    (DaysOfMonth.expand_ordinal month year (timeUnit.days_in_month month year) o).isSome
      = true := by
  have h28 := days_in_month_ge month year
  by_cases hw : o &&& IS_WEEKDAY = 0
  · by_cases hl : o &&& IS_LAST_OCCURRENCE = 0
    · simp [DaysOfMonth.expand_ordinal, hw, hl]
    · have hle := dom_validate_last_le hl hval
      rw [strip_weekday_eq h32 hw] at hle
      simp [DaysOfMonth.expand_ordinal, hw, hl, checked_sub]
      omega
  · by_cases hl : o &&& IS_LAST_OCCURRENCE = 0
    · have hb := dom_validate_default_bounds hl hval
      have hlow : 1 ≤ o &&& not32 IS_WEEKDAY :=
        le_trans hb.1 (stripped_le_weekday_base o)
      have hup := hwb hw hl
      simp [DaysOfMonth.expand_ordinal, hw, hl, from_ymd_opt, hm1, hm2, hlow, hup,
        checked_sub, Option.bind]
      split_ifs with hs1 hs2 hs3 hs4 hs5 hs6 <;> simp_all <;> omega
    · have h1L : 1 ≤ timeUnit.days_in_month month year := by omega
      simp [DaysOfMonth.expand_ordinal, hw, hl, from_ymd_opt, hm1, hm2, h28, h1L,
        checked_sub, Option.bind]
      split_ifs with hs1 hs2 hs3 hs4 hs5 hs6 <;> simp_all <;> omega

/-- Inversion for `checked_sub`: success means no underflow and a true difference. -/
theorem checked_sub_eq_some {a b c : Nat} (h : checked_sub a b = some c) :
    b ≤ a ∧ c = a - b := by
  unfold checked_sub at h
  by_cases hba : b ≤ a
  · rw [if_pos hba] at h
    cases h
    exact ⟨hba, rfl⟩
  · rw [if_neg hba] at h
    cases h

/-- Inversion for `from_ymd_opt`: success means the triple is a real calendar date. -/
theorem from_ymd_opt_eq_some {y m d : Nat} {dt : Date} (h : from_ymd_opt y m d = some dt) :
    (1 ≤ m ∧ m ≤ 12 ∧ 1 ≤ d ∧ d ≤ timeUnit.days_in_month m y) ∧ dt = ⟨y, m, d⟩ := by
  unfold from_ymd_opt at h
  by_cases hc : 1 ≤ m ∧ m ≤ 12 ∧ 1 ≤ d ∧ d ≤ timeUnit.days_in_month m y
  · rw [if_pos hc] at h
    cases h
    exact ⟨hc, rfl⟩
  · rw [if_neg hc] at h
    cases h

/-- Matching one day-of-week ordinal cannot panic on a date with a positive day. -/
theorem match_ordinal_isSome (o : Nat) (d : Date) (hday : 1 ≤ d.day) :
    (DaysOfWeek.match_ordinal o d).isSome = true := by
  have h28 := days_in_month_ge d.month d.year
  have h7 : 7 ≤ timeUnit.days_in_month d.month d.year := by omega
  simp [DaysOfWeek.match_ordinal, checked_sub, h7, hday]
  split_ifs <;> simp

/-- The function `match_day_of` cannot panic on a date with a positive day. -/
theorem match_day_of_isSome (ords : List Nat) (d : Date) (hday : 1 ≤ d.day) :
    (DaysOfWeek.match_day_of ords d).isSome = true := by
  induction ords with
  | nil => simp [DaysOfWeek.match_day_of]
  | cons o rest ih =>
    have ho := match_ordinal_isSome o d hday
    cases hmo : DaysOfWeek.match_ordinal o d with
    | none => rw [hmo] at ho; simp at ho
    | some b =>
      cases b
      · simpa [DaysOfWeek.match_day_of, hmo] using ih
      · simp [DaysOfWeek.match_day_of, hmo]

/-! ## Claim C1 -/

/-- C1 counterexample: the ordinal `31 ||| WEEKDAY` is accepted by
`DaysOfMonth::validate_ordinal`, yet expanding it for April 2024 (30 days) panics —
the internal date construction fails, modelled as `none`.  This refutes the claim
that expansion never fails for validated ordinals. -/
theorem C1_counterexample :
    DaysOfMonth.validate_ordinal (31 ||| IS_WEEKDAY) = Except.ok (31 ||| IS_WEEKDAY) ∧
    DaysOfMonth.days_in_month [31 ||| IS_WEEKDAY] 4 2024 = none := by
  constructor
  · decide
  · decide

/-- C1 (amended): `days_in_month` returns normally for every field of validated
32-bit ordinals and every real month, provided each `WEEKDAY`-only ordinal's base day
exists in the queried month; and `match_day_of` returns normally for every field and
every valid date, unconditionally. -/
theorem C1_expansion_no_panic_amended :
    (∀ (ords : List Nat) (month year : Nat), 1 ≤ month → month ≤ 12 →
      (∀ o ∈ ords, DaysOfMonth.validate_ordinal o = Except.ok o) →
      (∀ o ∈ ords, o < U32_SIZE) →
      (∀ o ∈ ords, o &&& IS_WEEKDAY ≠ 0 → o &&& IS_LAST_OCCURRENCE = 0 →
        o &&& not32 IS_WEEKDAY ≤ timeUnit.days_in_month month year) →
      (DaysOfMonth.days_in_month ords month year).isSome = true) ∧
    (∀ (ords : List Nat) (date : Date), date.valid →
      (DaysOfWeek.match_day_of ords date).isSome = true) := by
  constructor
  · intro ords month year hm1 hm2
    induction ords with
    | nil =>
      intro _ _ _
      simp [DaysOfMonth.days_in_month, DaysOfMonth.expand_all]
    | cons o rest ih =>
      intro hval h32 hwb
      have ho := expand_ordinal_isSome o month year hm1 hm2 (hval o (by simp))
        (h32 o (by simp)) (fun hw hl => hwb o (by simp) hw hl)
      have hrest := ih (fun x hx => hval x (by simp [hx]))
        (fun x hx => h32 x (by simp [hx])) (fun x hx => hwb x (by simp [hx]))
      simp only [DaysOfMonth.days_in_month] at hrest ⊢
      cases heo : DaysOfMonth.expand_ordinal month year
          (timeUnit.days_in_month month year) o with
      | none => rw [heo] at ho; simp at ho
      | some day =>
        cases her : DaysOfMonth.expand_all month year
            (timeUnit.days_in_month month year) rest with
        | none => rw [her] at hrest; simp at hrest
        | some days => simp [DaysOfMonth.expand_all, heo, her]
  · intro ords date hv
    exact match_day_of_isSome ords date hv.2.2.1

/-- Witness for C1 (amended) at concrete inputs: a field of two validated ordinals
expands without failure for February 2024, and a last-Friday field matches a date
without failure. -/
theorem C1_witness :
    (DaysOfMonth.days_in_month [15, 3 ||| IS_LAST_OCCURRENCE] 2 2024).isSome = true ∧
    (DaysOfWeek.match_day_of [6 ||| IS_LAST_OCCURRENCE] ⟨2024, 2, 23⟩).isSome = true :=
  ⟨C1_expansion_no_panic_amended.1 [15, 3 ||| IS_LAST_OCCURRENCE] 2 2024 (by decide)
      (by decide) (by decide) (by decide) (by decide),
   C1_expansion_no_panic_amended.2 [6 ||| IS_LAST_OCCURRENCE] ⟨2024, 2, 23⟩ (by decide)⟩

/-! ## Claim C2 -/

/-- C2 counterexample: the bare ordinal 31 is accepted by validation, yet
`days_in_month` for April 2024 (30 days) returns `{31}`, which lies outside
`[1, 30]`.  This refutes the claim that every returned value lies within the
month's real length for every month. -/
theorem C2_counterexample :
    DaysOfMonth.validate_ordinal 31 = Except.ok 31 ∧
    DaysOfMonth.days_in_month [31] 4 2024 = some [31] ∧
    timeUnit.days_in_month 4 2024 = 30 := by
  refine ⟨by decide, by decide, by decide⟩

/-- Expansion of one validated day-of-month ordinal lands in `[1, length]` provided
a bare ordinal does not exceed the month's length and a `LAST_OCCURRENCE`-only
offset is smaller than the month's length. -/
theorem expand_ordinal_in_range (o month year day : Nat)
    (hval : DaysOfMonth.validate_ordinal o = Except.ok o)
    (hbare : o &&& IS_WEEKDAY = 0 → o &&& IS_LAST_OCCURRENCE = 0 →
      o ≤ timeUnit.days_in_month month year)
    (hlastn : o &&& IS_WEEKDAY = 0 → o &&& IS_LAST_OCCURRENCE ≠ 0 →
      o &&& not32 IS_LAST_OCCURRENCE < timeUnit.days_in_month month year)
    (h : DaysOfMonth.expand_ordinal month year (timeUnit.days_in_month month year) o
      = some day) :
    1 ≤ day ∧ day ≤ timeUnit.days_in_month month year := by
  have h28 := days_in_month_ge month year
  by_cases hw : o &&& IS_WEEKDAY = 0
  · by_cases hl : o &&& IS_LAST_OCCURRENCE = 0
    · simp [DaysOfMonth.expand_ordinal, hw, hl] at h
      have hb := dom_validate_default_bounds hl hval
      have hso : o &&& not32 IS_LAST_OCCURRENCE &&& not32 IS_WEEKDAY ≤ o :=
        le_trans Nat.and_le_left Nat.and_le_left
      have hup := hbare hw hl
      omega
    · simp only [DaysOfMonth.expand_ordinal, hw, hl] at h
      simp [hw, hl] at h
      obtain ⟨hle, rfl⟩ := checked_sub_eq_some h
      have hn := hlastn hw hl
      omega
  · by_cases hl : o &&& IS_LAST_OCCURRENCE = 0
    · simp only [DaysOfMonth.expand_ordinal] at h
      simp [hw, hl] at h
      cases hymd : from_ymd_opt year month (o &&& not32 IS_WEEKDAY) with
      | none => rw [hymd] at h; simp [Option.bind] at h
      | some dt =>
        obtain ⟨⟨hm1, hm2, hd1, hd2⟩, rfl⟩ := from_ymd_opt_eq_some hymd
        rw [hymd] at h
        simp [Option.bind, checked_sub] at h
        split_ifs at h with hc1 hc2 hc3 hc4 hc5 hc6 <;> simp at h <;> omega
    · simp only [DaysOfMonth.expand_ordinal] at h
      simp [hw, hl] at h
      cases hymd : from_ymd_opt year month (timeUnit.days_in_month month year) with
      | none => rw [hymd] at h; simp [Option.bind] at h
      | some dt =>
        obtain ⟨⟨hm1, hm2, hd1, hd2⟩, rfl⟩ := from_ymd_opt_eq_some hymd
        rw [hymd] at h
        simp [Option.bind, checked_sub] at h
        split_ifs at h with hc1 hc2 hc3 hc4 hc5 hc6 <;> simp at h <;> omega


/-- C2 (amended): every value expanded by `days_in_month` from a validated field lies
in `[1, length(month, year)]`, provided each bare (unqualified) stored ordinal does
not exceed the month's length and each `LAST_OCCURRENCE`-only offset is smaller than
the month's length; without those provisos the bare ordinal 31 in a 30-day month
(value 31 > 30) and the offset 28 in a 28-day February (value 0 < 1) escape the
range. -/
theorem C2_values_in_range_amended (ords : List Nat) (month year : Nat) (res : List Nat)
    (hval : ∀ o ∈ ords, DaysOfMonth.validate_ordinal o = Except.ok o)
    (hbare : ∀ o ∈ ords, o &&& IS_WEEKDAY = 0 → o &&& IS_LAST_OCCURRENCE = 0 →
      o ≤ timeUnit.days_in_month month year)
    (hlastn : ∀ o ∈ ords, o &&& IS_WEEKDAY = 0 → o &&& IS_LAST_OCCURRENCE ≠ 0 →
      o &&& not32 IS_LAST_OCCURRENCE < timeUnit.days_in_month month year)
    (hres : DaysOfMonth.days_in_month ords month year = some res) :
    ∀ v ∈ res, 1 ≤ v ∧ v ≤ timeUnit.days_in_month month year := by
  induction ords generalizing res with
  | nil =>
    simp [DaysOfMonth.days_in_month, DaysOfMonth.expand_all] at hres
    subst hres
    intro v hv
    simp at hv
  | cons o rest ih =>
    simp only [DaysOfMonth.days_in_month, DaysOfMonth.expand_all] at hres
    cases heo : DaysOfMonth.expand_ordinal month year
        (timeUnit.days_in_month month year) o with
    | none => rw [heo] at hres; cases hres
    | some day =>
      rw [heo] at hres
      cases her : DaysOfMonth.expand_all month year
          (timeUnit.days_in_month month year) rest with
      | none => rw [her] at hres; cases hres
      | some days =>
        rw [her] at hres
        cases hres
        intro v hv
        rcases List.mem_cons.mp hv with hv1 | hv2
        · subst hv1
          exact expand_ordinal_in_range o month year v (hval o (by simp))
            (hbare o (by simp)) (hlastn o (by simp)) heo
        · exact ih days (fun x hx => hval x (by simp [hx]))
            (fun x hx => hbare x (by simp [hx]))
            (fun x hx => hlastn x (by simp [hx]))
            (by simpa [DaysOfMonth.days_in_month] using her) v hv2

/-- Witness for C2 (amended) at a concrete input: the field `{15, 3 ||| LAST}` for
February 2024 yields `{15, 26}`, both within `[1, 29]`. -/
theorem C2_witness :
    (1 ≤ 15 ∧ 15 ≤ timeUnit.days_in_month 2 2024) ∧
    (1 ≤ 26 ∧ 26 ≤ timeUnit.days_in_month 2 2024) :=
  ⟨C2_values_in_range_amended [15, 3 ||| IS_LAST_OCCURRENCE] 2 2024 [15, 26]
      (by decide) (by decide) (by decide) (by decide) 15 (by decide),
   C2_values_in_range_amended [15, 3 ||| IS_LAST_OCCURRENCE] 2 2024 [15, 26]
      (by decide) (by decide) (by decide) (by decide) 26 (by decide)⟩

/-! ## Claim C3 -/

/-- C3: for every day-of-month ordinal with the `WEEKDAY` bit set (and base day
realizable in the queried month), `days_in_month` maps it to the nudged day described
by the claim: base day = stripped literal (or the month's last day when
`LAST_OCCURRENCE` is also set); Sunday nudges to day+1, or to day-2 when the day is
the month's last; Saturday nudges to day-1, or to 3 when the day is 1; any other
weekday is unchanged. -/
theorem C3_weekday_nudge (o month year : Nat)
    (hW : o &&& IS_WEEKDAY ≠ 0)
    (hm1 : 1 ≤ month) (hm2 : month ≤ 12)
    (hd1 : 1 ≤ spec_weekday_base (timeUnit.days_in_month month year) o)
    (hd2 : spec_weekday_base (timeUnit.days_in_month month year) o
      ≤ timeUnit.days_in_month month year) :
    DaysOfMonth.days_in_month [o] month year
      = some [spec_weekday_nudge month year (timeUnit.days_in_month month year) o] := by
  have h28 := days_in_month_ge month year
  by_cases hL : o &&& IS_LAST_OCCURRENCE = 0
  · have hd1' : 1 ≤ o &&& not32 IS_WEEKDAY := by simpa [spec_weekday_base, hL] using hd1
    have hd2' : o &&& not32 IS_WEEKDAY ≤ timeUnit.days_in_month month year := by
      simpa [spec_weekday_base, hL] using hd2
    simp only [DaysOfMonth.days_in_month, DaysOfMonth.expand_all, DaysOfMonth.expand_ordinal,
      spec_weekday_nudge, spec_weekday_base]
    simp [hW, hL, from_ymd_opt, hm1, hm2, hd1', hd2', checked_sub]
    split_ifs with ha hb hc hd he hf <;>
      first | rfl | omega | (exfalso; omega) | (simp_all; try omega)
  · simp only [DaysOfMonth.days_in_month, DaysOfMonth.expand_all, DaysOfMonth.expand_ordinal,
      spec_weekday_nudge, spec_weekday_base]
    simp [hW, hL, from_ymd_opt, hm1, hm2, h28, checked_sub]
    split_ifs with ha hb hc hd he hf <;>
      first | rfl | omega | (exfalso; omega) | (simp_all; try omega)

/-- Witness for C3 at a concrete input: `15 ||| WEEKDAY` in February 2025 —
2025-02-15 is a Saturday, so it nudges to the 14th. -/
theorem C3_witness :
    DaysOfMonth.days_in_month [15 ||| IS_WEEKDAY] 2 2025 = some [14] ∧
    spec_weekday_nudge 2 2025 (timeUnit.days_in_month 2 2025) (15 ||| IS_WEEKDAY) = 14 :=
  ⟨(C3_weekday_nudge (15 ||| IS_WEEKDAY) 2 2025 (by decide) (by decide) (by decide)
      (by decide) (by decide)).trans (by decide),
   by decide⟩

/-! ## Claim C4 -/

/-- C4: for every day-of-month ordinal with only the `LAST_OCCURRENCE` bit set and
stripped base value at most 28, for every month and year, `days_in_month` maps it to
exactly `length(month, year) - n` (n = 0 yielding the month's last day). -/
theorem C4_last_occurrence_expansion (o month year : Nat)
    (hW : o &&& IS_WEEKDAY = 0) (hL : o &&& IS_LAST_OCCURRENCE ≠ 0)
    (hn : o &&& not32 IS_LAST_OCCURRENCE ≤ 28) :
    DaysOfMonth.days_in_month [o] month year
      = some [timeUnit.days_in_month month year - (o &&& not32 IS_LAST_OCCURRENCE)] := by
  have h28 := days_in_month_ge month year
  have hle : o &&& not32 IS_LAST_OCCURRENCE ≤ timeUnit.days_in_month month year := by omega
  simp [DaysOfMonth.days_in_month, DaysOfMonth.expand_all, DaysOfMonth.expand_ordinal,
    hW, hL, checked_sub, hle]

/-- Witness for C4 at a concrete input: `3 ||| LAST_OCCURRENCE` in February 2023
(28 days) resolves to day 25. -/
theorem C4_witness :
    DaysOfMonth.days_in_month [3 ||| IS_LAST_OCCURRENCE] 2 2023 = some [25] ∧
    timeUnit.days_in_month 2 2023 - ((3 ||| IS_LAST_OCCURRENCE) &&& not32 IS_LAST_OCCURRENCE)
      = 25 :=
  ⟨(C4_last_occurrence_expansion (3 ||| IS_LAST_OCCURRENCE) 2 2023 (by decide) (by decide)
      (by decide)).trans (by decide),
   by decide⟩

/-! ## Claim C7 -/

/-- C7: `DaysOfMonth::validate_ordinal` returns an Expression error if the
`LAST_OCCURRENCE` bit is set and the qualifier-stripped base value exceeds 28, and
returns the ordinal unchanged when that stripped base is at most 28; when
`LAST_OCCURRENCE` is not set it returns an Expression error iff the stripped base is
outside `[1, 31]`, and the ordinal unchanged otherwise. -/
theorem C7_days_of_month_validation (o : Nat) :
    (o &&& IS_LAST_OCCURRENCE ≠ 0 →
      (28 < o &&& not32 IS_LAST_OCCURRENCE &&& not32 IS_WEEKDAY →
        isExpressionError (DaysOfMonth.validate_ordinal o) = true) ∧
      (o &&& not32 IS_LAST_OCCURRENCE &&& not32 IS_WEEKDAY ≤ 28 →
        DaysOfMonth.validate_ordinal o = Except.ok o)) ∧
    (o &&& IS_LAST_OCCURRENCE = 0 →
      (isExpressionError (DaysOfMonth.validate_ordinal o) = true ↔
        ¬(1 ≤ o &&& not32 IS_LAST_OCCURRENCE &&& not32 IS_WEEKDAY ∧
          o &&& not32 IS_LAST_OCCURRENCE &&& not32 IS_WEEKDAY ≤ 31)) ∧
      (1 ≤ o &&& not32 IS_LAST_OCCURRENCE &&& not32 IS_WEEKDAY →
        o &&& not32 IS_LAST_OCCURRENCE &&& not32 IS_WEEKDAY ≤ 31 →
        DaysOfMonth.validate_ordinal o = Except.ok o)) := by
  constructor
  · intro hl
    refine ⟨fun hgt => ?_, fun hle => ?_⟩
    · simp [DaysOfMonth.validate_ordinal, hl, hgt, isExpressionError]
    · simp [DaysOfMonth.validate_ordinal, hl]
      exact hle
  · intro hl
    refine ⟨?_, fun h1 h31 => ?_⟩
    · simp [DaysOfMonth.validate_ordinal, validate_ordinal_default, hl,
        DaysOfMonth.inclusive_min, DaysOfMonth.inclusive_max]
      by_cases hb : o &&& not32 IS_LAST_OCCURRENCE &&& not32 IS_WEEKDAY = 0 ∨
          31 < o &&& not32 IS_LAST_OCCURRENCE &&& not32 IS_WEEKDAY
      · rw [if_pos hb]
        simp [isExpressionError]
        omega
      · rw [if_neg hb]
        simp [isExpressionError]
        omega
    · simp [DaysOfMonth.validate_ordinal, validate_ordinal_default, hl,
        DaysOfMonth.inclusive_min, DaysOfMonth.inclusive_max]
      have hb : ¬(o &&& not32 IS_LAST_OCCURRENCE &&& not32 IS_WEEKDAY = 0 ∨
          31 < o &&& not32 IS_LAST_OCCURRENCE &&& not32 IS_WEEKDAY) := by omega
      rw [if_neg hb]

/-- Witness for C7 at concrete inputs: `30 ||| LAST_OCCURRENCE` (stripped base 30,
exceeding 28) is rejected with an Expression error; the bare ordinal 15 is accepted
unchanged. -/
theorem C7_witness :
    isExpressionError (DaysOfMonth.validate_ordinal (30 ||| IS_LAST_OCCURRENCE)) = true ∧
    DaysOfMonth.validate_ordinal 15 = Except.ok 15 :=
  ⟨((C7_days_of_month_validation (30 ||| IS_LAST_OCCURRENCE)).1 (by decide)).1 (by decide),
   ((C7_days_of_month_validation 15).2 (by decide)).2 (by decide) (by decide)⟩

/-! ## Claim C9 -/

/-- C9: `DaysOfWeek::validate_ordinal` with any `NTH_OCCURRENCE` bit set returns the
raw ordinal iff the qualifier-stripped base value is at most 5, failing with an
Expression error otherwise; with no `NTH_OCCURRENCE` bit it returns the raw ordinal
iff the stripped base lies within `[1, 7]`. -/
theorem C9_days_of_week_validation (o : Nat) :
    (o &&& IS_NTH_OCCURRENCE ≠ 0 →
      ((DaysOfWeek.validate_ordinal o = Except.ok o) ↔
        o &&& not32 IS_NTH_OCCURRENCE &&& not32 IS_LAST_OCCURRENCE ≤ 5) ∧
      (5 < o &&& not32 IS_NTH_OCCURRENCE &&& not32 IS_LAST_OCCURRENCE →
        isExpressionError (DaysOfWeek.validate_ordinal o) = true)) ∧
    (o &&& IS_NTH_OCCURRENCE = 0 →
      ((DaysOfWeek.validate_ordinal o = Except.ok o) ↔
        (1 ≤ o &&& not32 IS_NTH_OCCURRENCE &&& not32 IS_LAST_OCCURRENCE ∧
          o &&& not32 IS_NTH_OCCURRENCE &&& not32 IS_LAST_OCCURRENCE ≤ 7))) := by
  constructor
  · intro hn
    refine ⟨?_, fun hgt => ?_⟩
    · by_cases hgt : 5 < o &&& not32 IS_NTH_OCCURRENCE &&& not32 IS_LAST_OCCURRENCE
      · simp [DaysOfWeek.validate_ordinal, hn, hgt]
      · simp [DaysOfWeek.validate_ordinal, hn, hgt]
        omega
    · simp [DaysOfWeek.validate_ordinal, hn, hgt, isExpressionError]
  · intro hn
    simp [DaysOfWeek.validate_ordinal, validate_ordinal_default, hn,
      DaysOfWeek.inclusive_min, DaysOfWeek.inclusive_max]
    by_cases hb : o &&& not32 IS_NTH_OCCURRENCE &&& not32 IS_LAST_OCCURRENCE = 0 ∨
        7 < o &&& not32 IS_NTH_OCCURRENCE &&& not32 IS_LAST_OCCURRENCE
    · rw [if_pos hb]
      simp
      omega
    · rw [if_neg hb]
      simp
      omega

/-- Witness for C9 at concrete inputs: `3 ||| 1ST_OCCURRENCE` is accepted unchanged,
`6 ||| 1ST_OCCURRENCE` is rejected with an Expression error, and the bare ordinal 5
is accepted unchanged. -/
theorem C9_witness :
    DaysOfWeek.validate_ordinal (3 ||| IS_1ST_OCCURRENCE)
      = Except.ok (3 ||| IS_1ST_OCCURRENCE) ∧
    isExpressionError (DaysOfWeek.validate_ordinal (6 ||| IS_1ST_OCCURRENCE)) = true ∧
    DaysOfWeek.validate_ordinal 5 = Except.ok 5 :=
  ⟨(((C9_days_of_week_validation (3 ||| IS_1ST_OCCURRENCE)).1 (by decide)).1).mpr (by decide),
   ((C9_days_of_week_validation (6 ||| IS_1ST_OCCURRENCE)).1 (by decide)).2 (by decide),
   ((C9_days_of_week_validation 5).2 (by decide)).mpr (by decide)⟩


/-! ## Claim C5 -/

/-- Matching one day-of-week ordinal computes exactly the claim's per-ordinal rule. -/
theorem match_ordinal_eq_spec (o : Nat) (d : Date) (hday : 1 ≤ d.day) :
    DaysOfWeek.match_ordinal o d = some (spec_ordinal_matches o d) := by
  have h28 := days_in_month_ge d.month d.year
  have h7 : 7 ≤ timeUnit.days_in_month d.month d.year := by omega
  by_cases hwd : o &&& not32 IS_NTH_OCCURRENCE &&& not32 IS_LAST_OCCURRENCE
      = number_from_sunday d
  · by_cases hn : o &&& IS_NTH_OCCURRENCE = 0 <;> by_cases hl : o &&& IS_LAST_OCCURRENCE = 0
    · simp [DaysOfWeek.match_ordinal, spec_ordinal_matches, hwd, hn, hl]
    · simp [DaysOfWeek.match_ordinal, spec_ordinal_matches, hwd, hn, hl, checked_sub, h7]
    · simp [DaysOfWeek.match_ordinal, spec_ordinal_matches, hwd, hn, hl, checked_sub, hday]
      rcases hbv : (d.day - 1) / 7 with _ | _ | _ | _ | _ | b <;>
        simp [nth_bucket_flag]
    · simp [DaysOfWeek.match_ordinal, spec_ordinal_matches, hwd, hn, hl, checked_sub, h7]
  · simp [DaysOfWeek.match_ordinal, spec_ordinal_matches, hwd]

/-- The function `match_day_of` computes the disjunction of the claim's per-ordinal rule over the
stored ordinals. -/
theorem match_day_of_eq_spec (ords : List Nat) (d : Date) (hday : 1 ≤ d.day) :
    DaysOfWeek.match_day_of ords d
      = some (ords.any fun o => spec_ordinal_matches o d) := by
  induction ords with
  | nil => simp [DaysOfWeek.match_day_of]
  | cons o rest ih =>
    simp only [DaysOfWeek.match_day_of]
    rw [match_ordinal_eq_spec o d hday]
    cases hsm : spec_ordinal_matches o d
    · simp [hsm, ih]
    · simp [hsm]

/-- C5: for every day-of-week field and every valid date, `match_day_of` returns true
iff some stored ordinal matches, where an ordinal matches per the claim's rule: its
stripped value equals the date's weekday number and, depending on the qualifier, the
date lies in the final 7 days (`LAST_OCCURRENCE`), or the zero-based bucket
`(day-1)/7` selects an occurrence bit set on the ordinal (`NTH_OCCURRENCE`, buckets
outside 0-4 never matching), or it matches unconditionally (no qualifier). -/
theorem C5_match_day_of_spec (ords : List Nat) (d : Date) (hv : d.valid) :
    (DaysOfWeek.match_day_of ords d = some true ↔
      ∃ o ∈ ords, spec_ordinal_matches o d = true) := by
  rw [match_day_of_eq_spec ords d hv.2.2.1]
  simp [List.any_eq_true]

/-- Witness for C5 at a concrete input: the field "first Saturday" matches 2024-02-03
(spec §8's scenario). -/
theorem C5_witness :
    DaysOfWeek.match_day_of [7 ||| IS_1ST_OCCURRENCE] ⟨2024, 2, 3⟩ = some true :=
  (C5_match_day_of_spec [7 ||| IS_1ST_OCCURRENCE] ⟨2024, 2, 3⟩ (by decide)).mpr
    ⟨7 ||| IS_1ST_OCCURRENCE, by decide, by decide⟩

/-! ## Claim C6 -/

/-- C6: for day-of-week, `LastPoint(Point 0)` resolves to the bare maximum value 7
(Saturday) with no qualifier bit; `LastPoint` of any other valid weekday point, or of
a recognized weekday name, resolves to that weekday with `LAST_OCCURRENCE` set. -/
theorem C6_last_point_resolution :
    DaysOfWeek.ordinals_from_root_specifier
        (RootSpecifier.LastPoint (SingleSpecifier.Point 0)) = Except.ok [7] ∧
    (∀ v : Nat, 1 ≤ v → v ≤ 7 →
      DaysOfWeek.ordinals_from_root_specifier
          (RootSpecifier.LastPoint (SingleSpecifier.Point v))
        = Except.ok [v ||| IS_LAST_OCCURRENCE]) ∧
    (∀ (name : String) (w : Nat), DaysOfWeek.ordinal_from_name name = Except.ok w →
      DaysOfWeek.ordinals_from_root_specifier
          (RootSpecifier.LastPoint (SingleSpecifier.NamedPoint name))
        = Except.ok [w ||| IS_LAST_OCCURRENCE]) := by
  refine ⟨by decide, fun v h1 h7 => ?_, fun name w hw => ?_⟩
  · interval_cases v <;> decide
  · simp [DaysOfWeek.ordinals_from_root_specifier, DaysOfWeek.resolve_single, hw]

/-- Witness for C6 at concrete inputs: `LastPoint(Point 5)` and `LastPoint("fri")`. -/
theorem C6_witness :
    DaysOfWeek.ordinals_from_root_specifier
        (RootSpecifier.LastPoint (SingleSpecifier.Point 5))
      = Except.ok [5 ||| IS_LAST_OCCURRENCE] ∧
    DaysOfWeek.ordinals_from_root_specifier
        (RootSpecifier.LastPoint (SingleSpecifier.NamedPoint "fri"))
      = Except.ok [6 ||| IS_LAST_OCCURRENCE] :=
  ⟨C6_last_point_resolution.2.1 5 (by decide) (by decide),
   C6_last_point_resolution.2.2 "fri" 6 (by decide)⟩

/-! ## Claim C8 -/

/-- C8: for day-of-week, `NthOfMonth(inner, n)` with an inner specifier resolving to
weekday `w` succeeds for n in {1,2,3,4,5} with the singleton `{w ||| n-th occurrence
bit}`, and fails with an Expression error for every other n. -/
theorem C8_nth_of_month_resolution (ss : SingleSpecifier) (w : Nat)
    (hss : DaysOfWeek.resolve_single ss = Except.ok w) :
    DaysOfWeek.ordinals_from_root_specifier (RootSpecifier.NthOfMonth ss 1)
      = Except.ok [w ||| IS_1ST_OCCURRENCE] ∧
    DaysOfWeek.ordinals_from_root_specifier (RootSpecifier.NthOfMonth ss 2)
      = Except.ok [w ||| IS_2ND_OCCURRENCE] ∧
    DaysOfWeek.ordinals_from_root_specifier (RootSpecifier.NthOfMonth ss 3)
      = Except.ok [w ||| IS_3RD_OCCURRENCE] ∧
    DaysOfWeek.ordinals_from_root_specifier (RootSpecifier.NthOfMonth ss 4)
      = Except.ok [w ||| IS_4TH_OCCURRENCE] ∧
    DaysOfWeek.ordinals_from_root_specifier (RootSpecifier.NthOfMonth ss 5)
      = Except.ok [w ||| IS_5TH_OCCURRENCE] ∧
    (∀ n : Nat, n = 0 ∨ 6 ≤ n →
      isExpressionError (DaysOfWeek.ordinals_from_root_specifier
        (RootSpecifier.NthOfMonth ss n)) = true) := by
  refine ⟨?_, ?_, ?_, ?_, ?_, fun n hn => ?_⟩
  · simp [DaysOfWeek.ordinals_from_root_specifier, hss]
  · simp [DaysOfWeek.ordinals_from_root_specifier, hss]
  · simp [DaysOfWeek.ordinals_from_root_specifier, hss]
  · simp [DaysOfWeek.ordinals_from_root_specifier, hss]
  · simp [DaysOfWeek.ordinals_from_root_specifier, hss]
  · rcases hn with rfl | h6
    · simp [DaysOfWeek.ordinals_from_root_specifier, hss, isExpressionError]
    · obtain ⟨m, rfl⟩ : ∃ m, n = m + 6 := ⟨n - 6, by omega⟩
      simp [DaysOfWeek.ordinals_from_root_specifier, hss, isExpressionError]

/-- Witness for C8 at concrete inputs: `NthOfMonth(Point 3, 2)` succeeds with the
second-occurrence bit; `NthOfMonth(Point 3, 6)` is rejected. -/
theorem C8_witness :
    DaysOfWeek.ordinals_from_root_specifier
        (RootSpecifier.NthOfMonth (SingleSpecifier.Point 3) 2)
      = Except.ok [3 ||| IS_2ND_OCCURRENCE] ∧
    isExpressionError (DaysOfWeek.ordinals_from_root_specifier
        (RootSpecifier.NthOfMonth (SingleSpecifier.Point 3) 6)) = true :=
  ⟨(C8_nth_of_month_resolution (SingleSpecifier.Point 3) 3 (by decide)).2.1,
   (C8_nth_of_month_resolution (SingleSpecifier.Point 3) 3 (by decide)).2.2.2.2.2 6
     (by decide)⟩


/-! ## Claim C10 -/

/-- Source fact: `DaysOfWeek::validate_ordinal` only ever returns its own argument on success. -/
theorem dow_validate_ok_inv {v w : Nat}
    (h : DaysOfWeek.validate_ordinal v = Except.ok w) : w = v := by
  simp only [DaysOfWeek.validate_ordinal] at h
  split at h
  · split at h
    · cases h
    · cases h
      rfl
  · split at h
    · cases h
    · cases h
      rfl

/-- A validated day-of-week ordinal with an `NTH_OCCURRENCE` bit has a stripped base
of at most 5. -/
theorem dow_validate_nth_le {o o' : Nat} (hn : o &&& IS_NTH_OCCURRENCE ≠ 0)
    (h : DaysOfWeek.validate_ordinal o = Except.ok o') :
    o &&& not32 IS_NTH_OCCURRENCE &&& not32 IS_LAST_OCCURRENCE ≤ 5 := by
  by_cases hgt : 5 < o &&& not32 IS_NTH_OCCURRENCE &&& not32 IS_LAST_OCCURRENCE
  · simp [DaysOfWeek.validate_ordinal, hn, hgt] at h
  · omega

/-- A validated day-of-week ordinal without `NTH_OCCURRENCE` bits has a stripped base
within the field bounds `[1, 7]`. -/
theorem dow_validate_default_bounds {o o' : Nat} (hn : o &&& IS_NTH_OCCURRENCE = 0)
    (h : DaysOfWeek.validate_ordinal o = Except.ok o') :
    1 ≤ o &&& not32 IS_NTH_OCCURRENCE &&& not32 IS_LAST_OCCURRENCE ∧
      o &&& not32 IS_NTH_OCCURRENCE &&& not32 IS_LAST_OCCURRENCE ≤ 7 := by
  by_cases hb : o &&& not32 IS_NTH_OCCURRENCE &&& not32 IS_LAST_OCCURRENCE = 0 ∨
      7 < o &&& not32 IS_NTH_OCCURRENCE &&& not32 IS_LAST_OCCURRENCE
  · simp [DaysOfWeek.validate_ordinal, validate_ordinal_default, hn,
      DaysOfWeek.inclusive_min, DaysOfWeek.inclusive_max] at h
    rw [if_pos hb] at h
    simp at h
  · omega

/-- Every recognized weekday name resolves to a value in `[1, 7]`. -/
theorem from_name_range {nm : String} {w : Nat}
    (h : DaysOfWeek.ordinal_from_name nm = Except.ok w) : 1 ≤ w ∧ w ≤ 7 := by
  unfold DaysOfWeek.ordinal_from_name at h
  split at h <;> first | (cases h; decide) | cases h

/-- Every bare weekday value in `[1, 7]` is accepted unchanged by
`DaysOfWeek::validate_ordinal`. -/
theorem dow_validate_small {w : Nat} (h1 : 1 ≤ w) (h7 : w ≤ 7) :
    DaysOfWeek.validate_ordinal w = Except.ok w := by
  interval_cases w <;> decide

/-- A successful inner resolution yields a value accepted by validation. -/
theorem resolve_single_ok_validate {ss : SingleSpecifier} {w : Nat}
    (h : DaysOfWeek.resolve_single ss = Except.ok w) :
    DaysOfWeek.validate_ordinal w = Except.ok w := by
  cases ss with
  | Point v =>
    have hw := dow_validate_ok_inv (h : DaysOfWeek.validate_ordinal v = Except.ok w)
    subst hw
    exact h
  | NamedPoint nm =>
    have hr := from_name_range (h : DaysOfWeek.ordinal_from_name nm = Except.ok w)
    exact dow_validate_small hr.1 hr.2

/-- Attaching the `LAST_OCCURRENCE` bit preserves acceptance by
`DaysOfWeek::validate_ordinal`. -/
theorem validate_lor_last {v : Nat}
    (hv : DaysOfWeek.validate_ordinal v = Except.ok v) :
    DaysOfWeek.validate_ordinal (v ||| IS_LAST_OCCURRENCE)
      = Except.ok (v ||| IS_LAST_OCCURRENCE) := by
  have hnth : (v ||| IS_LAST_OCCURRENCE) &&& IS_NTH_OCCURRENCE = v &&& IS_NTH_OCCURRENCE := by
    rw [land_lor_right, show IS_LAST_OCCURRENCE &&& IS_NTH_OCCURRENCE = 0 from by decide,
      Nat.or_zero]
  have hstr : (v ||| IS_LAST_OCCURRENCE) &&& not32 IS_NTH_OCCURRENCE
        &&& not32 IS_LAST_OCCURRENCE
      = v &&& not32 IS_NTH_OCCURRENCE &&& not32 IS_LAST_OCCURRENCE := by
    rw [land_lor_right,
      show IS_LAST_OCCURRENCE &&& not32 IS_NTH_OCCURRENCE = IS_LAST_OCCURRENCE from by decide,
      land_lor_right,
      show IS_LAST_OCCURRENCE &&& not32 IS_LAST_OCCURRENCE = 0 from by decide,
      Nat.or_zero]
  by_cases hn : v &&& IS_NTH_OCCURRENCE = 0
  · have hb := dow_validate_default_bounds hn hv
    simp only [DaysOfWeek.validate_ordinal, validate_ordinal_default,
      DaysOfWeek.inclusive_min, DaysOfWeek.inclusive_max, hnth, hstr]
    simp only [hn]
    rw [if_neg (by simp)]
    rw [if_neg (by omega)]
  · have hle := dow_validate_nth_le hn hv
    simp only [DaysOfWeek.validate_ordinal, hnth, hstr]
    rw [if_pos (by simpa using hn)]
    rw [if_neg (by omega)]

/-- Attaching one `NTH_OCCURRENCE` bit to a validated weekday value round-trips
through validation exactly when the stripped base is at most 5, and is rejected with
an Expression error otherwise. -/
theorem validate_lor_nth {w b : Nat}
    (hw : DaysOfWeek.validate_ordinal w = Except.ok w)
    (hb_in : b &&& IS_NTH_OCCURRENCE = b)
    (hb_strip : b &&& not32 IS_NTH_OCCURRENCE = 0)
    (hbne : b ≠ 0) :
    DaysOfWeek.validate_ordinal (w ||| b) = Except.ok (w ||| b) ∨
      (6 ≤ (w ||| b) &&& not32 IS_NTH_OCCURRENCE &&& not32 IS_LAST_OCCURRENCE ∧
        isExpressionError (DaysOfWeek.validate_ordinal (w ||| b)) = true) := by
  have hnth : (w ||| b) &&& IS_NTH_OCCURRENCE ≠ 0 := by
    rw [land_lor_right, hb_in]
    exact lor_ne_zero_right _ _ hbne
  have hstr : (w ||| b) &&& not32 IS_NTH_OCCURRENCE &&& not32 IS_LAST_OCCURRENCE
      = w &&& not32 IS_NTH_OCCURRENCE &&& not32 IS_LAST_OCCURRENCE := by
    rw [land_lor_right, hb_strip, Nat.or_zero]
  by_cases hle : w &&& not32 IS_NTH_OCCURRENCE &&& not32 IS_LAST_OCCURRENCE ≤ 5
  · left
    simp only [DaysOfWeek.validate_ordinal, hstr]
    rw [if_pos (by simpa using hnth)]
    rw [if_neg (by omega)]
  · right
    refine ⟨by omega, ?_⟩
    simp only [DaysOfWeek.validate_ordinal, hstr]
    rw [if_pos (by simpa using hnth)]
    rw [if_pos (by omega)]
    rfl

/-- C10 counterexample: the resolver maps `NthOfMonth(Point 6, 2)` (second Friday) to
the singleton `{6 ||| 2ND_OCCURRENCE}`, yet `DaysOfWeek::validate_ordinal` rejects
that very ordinal — it reads the stripped base 6 as an occurrence number and requires
it to be at most 5.  This refutes the claim that validation accepts all resolver
outputs. -/
theorem C10_counterexample :
    DaysOfWeek.ordinals_from_root_specifier
        (RootSpecifier.NthOfMonth (SingleSpecifier.Point 6) 2)
      = Except.ok [6 ||| IS_2ND_OCCURRENCE] ∧
    isExpressionError (DaysOfWeek.validate_ordinal (6 ||| IS_2ND_OCCURRENCE)) = true := by
  refine ⟨by decide, by decide⟩

/-- C10 (amended): every ordinal produced by a successful
`DaysOfWeek::ordinals_from_root_specifier` is accepted unchanged by
`DaysOfWeek::validate_ordinal`, except the `NthOfMonth` outputs whose stripped
weekday base is 6 (Friday) or 7 (Saturday): those are rejected with an Expression
error. -/
theorem C10_roundtrip_amended (rs : RootSpecifier) (S : List Nat)
    (h : DaysOfWeek.ordinals_from_root_specifier rs = Except.ok S) :
    ∀ o ∈ S,
      DaysOfWeek.validate_ordinal o = Except.ok o ∨
      ((∃ ss n, rs = RootSpecifier.NthOfMonth ss n) ∧
        6 ≤ o &&& not32 IS_NTH_OCCURRENCE &&& not32 IS_LAST_OCCURRENCE ∧
        isExpressionError (DaysOfWeek.validate_ordinal o) = true) := by
  intro o ho
  cases rs with
  | Point v =>
    simp only [DaysOfWeek.ordinals_from_root_specifier,
      ordinals_from_root_specifier_default] at h
    cases hv : DaysOfWeek.validate_ordinal v with
    | error e => rw [hv] at h; cases h
    | ok w =>
      rw [hv] at h
      cases h
      simp at ho
      subst ho
      left
      have hw := dow_validate_ok_inv hv
      subst hw
      exact hv
  | NamedPoint nm =>
    simp only [DaysOfWeek.ordinals_from_root_specifier,
      ordinals_from_root_specifier_default] at h
    cases hv : DaysOfWeek.ordinal_from_name nm with
    | error e => rw [hv] at h; cases h
    | ok w =>
      rw [hv] at h
      cases h
      simp at ho
      subst ho
      left
      have hr := from_name_range hv
      exact dow_validate_small hr.1 hr.2
  | Range a b =>
    simp only [DaysOfWeek.ordinals_from_root_specifier,
      ordinals_from_root_specifier_default, DaysOfWeek.inclusive_min,
      DaysOfWeek.inclusive_max] at h
    split_ifs at h with hc
    cases h
    left
    have hm := List.mem_range'_1.mp ho
    exact dow_validate_small (by omega) (by omega)
  | Period start step =>
    simp only [DaysOfWeek.ordinals_from_root_specifier,
      ordinals_from_root_specifier_default, DaysOfWeek.inclusive_min,
      DaysOfWeek.inclusive_max] at h
    split_ifs at h with hc
    cases h
    left
    have hm := List.mem_filter.mp ho
    have hm2 := List.mem_range'_1.mp hm.1
    exact dow_validate_small (by omega) (by omega)
  | All =>
    simp only [DaysOfWeek.ordinals_from_root_specifier,
      ordinals_from_root_specifier_default, DaysOfWeek.inclusive_min,
      DaysOfWeek.inclusive_max] at h
    cases h
    left
    have hm := List.mem_range'_1.mp ho
    exact dow_validate_small (by omega) (by omega)
  | Weekday v =>
    simp only [DaysOfWeek.ordinals_from_root_specifier,
      ordinals_from_root_specifier_default] at h
    cases h
  | LastPoint ss =>
    cases ss with
    | Point v =>
      cases v with
      | zero =>
        simp only [DaysOfWeek.ordinals_from_root_specifier] at h
        cases h
        simp at ho
        subst ho
        left
        decide
      | succ n =>
        simp only [DaysOfWeek.ordinals_from_root_specifier,
          DaysOfWeek.resolve_single] at h
        cases hv : DaysOfWeek.validate_ordinal (n + 1) with
        | error e => rw [hv] at h; cases h
        | ok w =>
          rw [hv] at h
          cases h
          simp at ho
          subst ho
          left
          have hw := dow_validate_ok_inv hv
          subst hw
          exact validate_lor_last hv
    | NamedPoint nm =>
      simp only [DaysOfWeek.ordinals_from_root_specifier,
        DaysOfWeek.resolve_single] at h
      cases hv : DaysOfWeek.ordinal_from_name nm with
      | error e => rw [hv] at h; cases h
      | ok w =>
        rw [hv] at h
        cases h
        simp at ho
        subst ho
        left
        have hr := from_name_range hv
        exact validate_lor_last (dow_validate_small hr.1 hr.2)
  | NthOfMonth ss n =>
    simp only [DaysOfWeek.ordinals_from_root_specifier] at h
    cases hres : DaysOfWeek.resolve_single ss with
    | error e => rw [hres] at h; cases h
    | ok w =>
      rw [hres] at h
      have hw := resolve_single_ok_validate hres
      have hmk : ∀ b : Nat, b &&& IS_NTH_OCCURRENCE = b → b &&& not32 IS_NTH_OCCURRENCE = 0 →
          b ≠ 0 → o = w ||| b →
          DaysOfWeek.validate_ordinal o = Except.ok o ∨
          ((∃ ss2 n2, RootSpecifier.NthOfMonth ss n = RootSpecifier.NthOfMonth ss2 n2) ∧
            6 ≤ o &&& not32 IS_NTH_OCCURRENCE &&& not32 IS_LAST_OCCURRENCE ∧
            isExpressionError (DaysOfWeek.validate_ordinal o) = true) := by
        intro b hb1 hb2 hb3 hob
        subst hob
        rcases validate_lor_nth hw hb1 hb2 hb3 with hok | ⟨hge, herr⟩
        · exact Or.inl hok
        · exact Or.inr ⟨⟨ss, n, rfl⟩, hge, herr⟩
      rcases n with _ | _ | _ | _ | _ | _ | m
      · cases h
      · cases h
        simp at ho
        exact hmk IS_1ST_OCCURRENCE (by decide) (by decide) (by decide) ho
      · cases h
        simp at ho
        exact hmk IS_2ND_OCCURRENCE (by decide) (by decide) (by decide) ho
      · cases h
        simp at ho
        exact hmk IS_3RD_OCCURRENCE (by decide) (by decide) (by decide) ho
      · cases h
        simp at ho
        exact hmk IS_4TH_OCCURRENCE (by decide) (by decide) (by decide) ho
      · cases h
        simp at ho
        exact hmk IS_5TH_OCCURRENCE (by decide) (by decide) (by decide) ho
      · cases h

/-- Witness for C10 (amended) at a concrete input: a resolved last-Thursday ordinal
is accepted by validation. -/
theorem C10_witness :
    DaysOfWeek.validate_ordinal (5 ||| IS_LAST_OCCURRENCE)
      = Except.ok (5 ||| IS_LAST_OCCURRENCE) :=
  (C10_roundtrip_amended (RootSpecifier.LastPoint (SingleSpecifier.Point 5))
      [5 ||| IS_LAST_OCCURRENCE] (by decide) (5 ||| IS_LAST_OCCURRENCE)
      (by simp)).resolve_right
    (by rintro ⟨⟨ss, n, heq⟩, -, -⟩; cases heq)

end cron
